import Mathlib

/-!
Shallow embedding of `video/adaptation/bitrate_constraint.cc` (WebRTC), the
bitrate-feasibility adaptation constraint, together with theorems settling the
specification claims about it.

Modelling conventions.

* C++ `uint32_t` values are naturals; the only arithmetic performed on them by
  the source is comparison, so no wrap-around modelling is needed for them.
  The C++ `int` fields of `ResolutionBitrateLimits` are `Int`.
* `static_cast<uint32_t>` of an `int` is reduction modulo `2^32`
  (`uint32OfInt` below), as the C++ standard defines for conversion to an
  unsigned type.
* `absl::optional` is `Option`; `value_or(0)` is `Option.getD _ 0`.
* The collaborators that the source calls but whose definitions live outside
  this repository fragment (`DidIncreaseResolution` and
  `GetHigherResolutionThan` from `call/adaptation/video_stream_adapter.h`,
  `GetSingleActiveLayerPixels` from
  `video/adaptation/video_stream_encoder_resource_manager.h`, and the
  `GetEncoderBitrateLimitsForResolution` method of the encoder-capability
  object) are kept abstract: they are fields of a `Collaborators` record and
  of `EncoderInfo`, universally quantified in every theorem.  The claims only
  constrain their results, never their internals, so this is faithful.
* The codec-description type and the restriction-set type are opaque to the
  source as well; they are type parameters.
* `IsSimulcast` indexes `simulcast_layers[0]` on a `std::vector`
  unconditionally; on an empty vector this is an out-of-bounds read
  (undefined behavior).  The embedding returns `Option Bool`, with `none`
  marking that the undefined access was reached, and `IsAdaptationUpAllowed`
  propagates that `none`.  Every defined return of the C++ function is
  `some _`.
* `RTC_DCHECK_RUN_ON` / `RTC_DCHECK_GE` are debug-only assertions with no
  release semantics and are not modelled.
* The C++ method `IsAdaptationUpAllowed` is `const`; the state-passing
  embedding returns the (result, post-state) pair, with each C++ `return e`
  becoming `(e, self)`.
-/

namespace Webrtc

/-- One entry of `VideoEncoderConfig::simulcast_layers` (a `VideoStream`);
only its `active` flag is read by this component. -/
structure VideoStream where
  active : Bool
deriving DecidableEq, Repr

/-- The slice of `VideoEncoderConfig` read by this component. -/
structure VideoEncoderConfig where
  simulcast_layers : List VideoStream
deriving DecidableEq, Repr

/-- One entry of the encoder capability table
(`VideoEncoder::ResolutionBitrateLimits`); both fields are C++ `int`. -/
structure ResolutionBitrateLimits where
  frame_size_pixels : Int
  min_start_bitrate_bps : Int
deriving DecidableEq, Repr

/-- The encoder capability info: the source only calls its lookup method
`GetEncoderBitrateLimitsForResolution`, whose definition is outside the
fragment, so it is an abstract function from a pixel count to an optional
table entry. -/
structure EncoderInfo where
  GetEncoderBitrateLimitsForResolution : Int → Option ResolutionBitrateLimits

/-- The slice of `EncoderSettings` read by this component, parametric in the
(opaque) codec-description type. -/
structure EncoderSettings (VideoCodec : Type) where
  encoder_config : VideoEncoderConfig
  video_codec : VideoCodec
  encoder_info : EncoderInfo

/-- The stored state of `BitrateConstraint`: the two optional fields assigned
in the constructor and the two update methods. -/
structure BitrateConstraint (VideoCodec : Type) where
  encoder_settings : Option (EncoderSettings VideoCodec)
  encoder_target_bitrate_bps : Option Nat

/-- The free functions the source calls whose bodies live outside this
repository fragment; kept abstract and universally quantified. -/
structure Collaborators (Restrictions VideoCodec : Type) where
  DidIncreaseResolution : Restrictions → Restrictions → Bool
  GetSingleActiveLayerPixels : VideoCodec → Option Nat
  GetHigherResolutionThan : Nat → Int

/-- C++ `static_cast<uint32_t>` applied to a (mathematical) integer:
reduction modulo `2^32` into `[0, 2^32)`. -/
def uint32OfInt (v : Int) : Nat :=
  (v % (4294967296 : Int)).toNat

/-- Embedding of the anonymous-namespace helper `IsSimulcast`.  The C++ body
evaluates `simulcast_layers[0].active` before any emptiness check, so an
empty layer list reaches an out-of-bounds vector read: that is the `none`
result.  Otherwise the result is
`size > 1 && (num_active_layers > 1 || is_lowest_layer_active)`. -/
def IsSimulcast (encoder_config : VideoEncoderConfig) : Option Bool :=
  let simulcast_layers := encoder_config.simulcast_layers
  let is_simulcast := decide (1 < simulcast_layers.length)
  match simulcast_layers.head? with
  | none => none
  | some layer0 =>
    let is_lowest_layer_active := layer0.active
    let num_active_layers := simulcast_layers.countP (fun layer => layer.active)
    some (is_simulcast && (decide (1 < num_active_layers) || is_lowest_layer_active))

/-- Embedding of `BitrateConstraint::OnEncoderSettingsUpdated`: whole-value
replacement of the stored settings. -/
def BitrateConstraint.OnEncoderSettingsUpdated {VideoCodec : Type}
    (self : BitrateConstraint VideoCodec)
    (encoder_settings : Option (EncoderSettings VideoCodec)) :
    BitrateConstraint VideoCodec :=
  { self with encoder_settings := encoder_settings }

/-- Embedding of `BitrateConstraint::OnEncoderTargetBitrateUpdated`:
whole-value replacement of the stored target bitrate. -/
def BitrateConstraint.OnEncoderTargetBitrateUpdated {VideoCodec : Type}
    (self : BitrateConstraint VideoCodec)
    (encoder_target_bitrate_bps : Option Nat) : BitrateConstraint VideoCodec :=
  { self with encoder_target_bitrate_bps := encoder_target_bitrate_bps }

/-- Return value of `BitrateConstraint::IsAdaptationUpAllowed`, translated
branch for branch from the source.  `none` means evaluation reached the
undefined out-of-bounds read inside `IsSimulcast`; `some b` means the call
returns the boolean `b`. -/
def BitrateConstraint.allowedUp {Restrictions VideoCodec InputState : Type}
    (self : BitrateConstraint VideoCodec)
    (ext : Collaborators Restrictions VideoCodec)
    (input_state : InputState)
    (restrictions_before restrictions_after : Restrictions) : Option Bool :=
  if ext.DidIncreaseResolution restrictions_before restrictions_after then
    match self.encoder_settings with
    | none => some true
    | some settings =>
      let bitrate_bps := self.encoder_target_bitrate_bps.getD 0
      if bitrate_bps = 0 then some true
      else
        match IsSimulcast settings.encoder_config with
        | none => none
        | some true => some true
        | some false =>
          match ext.GetSingleActiveLayerPixels settings.video_codec with
          | none => some true
          | some current_frame_size_px =>
            match settings.encoder_info.GetEncoderBitrateLimitsForResolution
                (ext.GetHigherResolutionThan current_frame_size_px) with
            | some bitrate_limits =>
              some (decide (uint32OfInt bitrate_limits.min_start_bitrate_bps ≤ bitrate_bps))
            | none => some true
  else some true

/-- State-passing embedding of the `const` method
`BitrateConstraint::IsAdaptationUpAllowed`: each C++ `return e` becomes the
pair `(e, self)` carrying the post-call stored state, which the body never
assigns to. -/
def BitrateConstraint.IsAdaptationUpAllowed {Restrictions VideoCodec InputState : Type}
    (self : BitrateConstraint VideoCodec)
    (ext : Collaborators Restrictions VideoCodec)
    (input_state : InputState)
    (restrictions_before restrictions_after : Restrictions) :
    Option Bool × BitrateConstraint VideoCodec :=
  if ext.DidIncreaseResolution restrictions_before restrictions_after then
    match self.encoder_settings with
    | none => (some true, self)
    | some settings =>
      let bitrate_bps := self.encoder_target_bitrate_bps.getD 0
      if bitrate_bps = 0 then (some true, self)
      else
        match IsSimulcast settings.encoder_config with
        | none => (none, self)
        | some true => (some true, self)
        | some false =>
          match ext.GetSingleActiveLayerPixels settings.video_codec with
          | none => (some true, self)
          | some current_frame_size_px =>
            match settings.encoder_info.GetEncoderBitrateLimitsForResolution
                (ext.GetHigherResolutionThan current_frame_size_px) with
            | some bitrate_limits =>
              (some (decide (uint32OfInt bitrate_limits.min_start_bitrate_bps ≤ bitrate_bps)), self)
            | none => (some true, self)
  else (some true, self)

/-- The spec's simulcast predicate, written from the spec's words: more than
one configured layer, and (more than one layer active, or the
lowest-resolution layer — the first — is active).  Used to compare against
the source-derived `IsSimulcast`. -/
def SimulcastSpec (encoder_config : VideoEncoderConfig) : Bool :=
  decide (1 < encoder_config.simulcast_layers.length) &&
    (decide (1 < encoder_config.simulcast_layers.countP (fun layer => layer.active)) ||
      ((encoder_config.simulcast_layers.head?.map (fun layer => layer.active)).getD false))

/-
Concrete instances used by witnesses and counterexamples.  They follow the
spec's worked example: current pixel count 230400 (640x360), next tier
921600 (1280x720) with minimum start bitrate 1500000 bps.
-/

/-- Collaborator bundle whose restriction comparison always reports a
resolution increase and whose single-active-layer pixel count is 230400,
with 921600 as the next higher resolution. -/
def alwaysIncrease : Collaborators Unit Unit :=
  ⟨fun _ _ => true, fun _ => some 230400, fun _ => 921600⟩

/-- Collaborator bundle whose restriction comparison never reports a
resolution increase. -/
def neverIncrease : Collaborators Unit Unit :=
  ⟨fun _ _ => false, fun _ => some 230400, fun _ => 921600⟩

/-- Capability table holding one entry: tier 921600 px requires a minimum
start bitrate of 1500000 bps. -/
def tierTable : EncoderInfo :=
  ⟨fun px => if px = 921600 then some ⟨921600, 1500000⟩ else none⟩

/-- Capability table with no entries. -/
def noTable : EncoderInfo := ⟨fun _ => none⟩

/-- Capability table whose single entry has a negative
`min_start_bitrate_bps`. -/
def negTable : EncoderInfo := ⟨fun _ => some ⟨921600, -1⟩⟩

/-- Singlecast settings: one configured layer, active. -/
def singlecastSettings : EncoderSettings Unit := ⟨⟨[⟨true⟩]⟩, (), tierTable⟩

/-- Simulcast settings: two configured layers, both active. -/
def simulcastSettings : EncoderSettings Unit := ⟨⟨[⟨true⟩, ⟨true⟩]⟩, (), tierTable⟩

/-- Settings whose configuration has an empty simulcast-layer list. -/
def emptyLayerSettings : EncoderSettings Unit := ⟨⟨[]⟩, (), tierTable⟩

/-- Singlecast settings whose capability table has the negative
minimum-start-bitrate entry. -/
def negMinSettings : EncoderSettings Unit := ⟨⟨[⟨true⟩]⟩, (), negTable⟩

/-- Singlecast settings with an empty capability table. -/
def noTableSettings : EncoderSettings Unit := ⟨⟨[⟨true⟩]⟩, (), noTable⟩

/-
Shared helper lemmas.
-/

/-- The state-passing embedding and the return-value embedding of
`IsAdaptationUpAllowed` compute the same result. -/
theorem IsAdaptationUpAllowed_fst_eq_allowedUp
    {Restrictions VideoCodec InputState : Type}
    (self : BitrateConstraint VideoCodec)
    (ext : Collaborators Restrictions VideoCodec)
    (i : InputState) (rb ra : Restrictions) :
    (self.IsAdaptationUpAllowed ext i rb ra).1 = self.allowedUp ext i rb ra := by
  unfold BitrateConstraint.IsAdaptationUpAllowed BitrateConstraint.allowedUp
  repeat' split <;> try rfl
  all_goals (dsimp only; split <;> rfl)

/-- The source-derived `IsSimulcast` classifies a configuration as
simulcast exactly when the spec predicate `SimulcastSpec` holds (an empty
layer list is classified by neither: `IsSimulcast` returns `none` there). -/
theorem IsSimulcast_eq_spec (cfg : VideoEncoderConfig) :
    IsSimulcast cfg = some true ↔ SimulcastSpec cfg = true := by
  obtain ⟨layers⟩ := cfg
  cases layers with
  | nil => simp [IsSimulcast, SimulcastSpec]
  | cons layer0 rest => simp [IsSimulcast, SimulcastSpec]

/-- When every guard of the algorithm resolves (resolution increase,
settings present, nonzero effective bitrate, singlecast, resolvable pixel
count, applicable table entry), the query returns exactly the comparison of
the effective target bitrate with the entry's minimum start bitrate cast to
`uint32`. -/
theorem allowedUp_of_limit {Restrictions VideoCodec InputState : Type}
    (self : BitrateConstraint VideoCodec)
    (ext : Collaborators Restrictions VideoCodec)
    (i : InputState) (rb ra : Restrictions) (es : EncoderSettings VideoCodec)
    (px : Nat) (lim : ResolutionBitrateLimits)
    (hinc : ext.DidIncreaseResolution rb ra = true)
    (hset : self.encoder_settings = some es)
    (hbr : self.encoder_target_bitrate_bps.getD 0 ≠ 0)
    (hsim : IsSimulcast es.encoder_config = some false)
    (hpx : ext.GetSingleActiveLayerPixels es.video_codec = some px)
    (hlim : es.encoder_info.GetEncoderBitrateLimitsForResolution
        (ext.GetHigherResolutionThan px) = some lim) :
    self.allowedUp ext i rb ra
      = some (decide (uint32OfInt lim.min_start_bitrate_bps
          ≤ self.encoder_target_bitrate_bps.getD 0)) := by
  unfold BitrateConstraint.allowedUp
  rw [hinc, hset]
  dsimp only
  rw [if_neg hbr, hsim]
  simp [hpx, hlim]

/-- Inversion: a `false` answer can only come out of the final bitrate
comparison, with every guard of the algorithm resolved on the way there. -/
theorem allowedUp_false_inversion {Restrictions VideoCodec InputState : Type}
    (self : BitrateConstraint VideoCodec)
    (ext : Collaborators Restrictions VideoCodec)
    (i : InputState) (rb ra : Restrictions)
    (h : self.allowedUp ext i rb ra = some false) :
    ext.DidIncreaseResolution rb ra = true ∧
    ∃ es, self.encoder_settings = some es ∧
      self.encoder_target_bitrate_bps.getD 0 ≠ 0 ∧
      IsSimulcast es.encoder_config = some false ∧
      ∃ px, ext.GetSingleActiveLayerPixels es.video_codec = some px ∧
      ∃ lim, es.encoder_info.GetEncoderBitrateLimitsForResolution
          (ext.GetHigherResolutionThan px) = some lim ∧
        self.encoder_target_bitrate_bps.getD 0
          < uint32OfInt lim.min_start_bitrate_bps := by
  unfold BitrateConstraint.allowedUp at h
  split at h
  case isFalse => simp at h
  case isTrue hinc =>
    split at h
    case h_1 => simp at h
    case h_2 es hset =>
      dsimp only at h
      split at h
      case isTrue => simp at h
      case isFalse hbr =>
        split at h
        case h_1 => simp at h
        case h_2 => simp at h
        case h_3 hsim =>
          split at h
          case h_1 => simp at h
          case h_2 px hpx =>
            split at h
            case h_2 => simp at h
            case h_1 lim hlim =>
              refine ⟨hinc, es, hset, hbr, hsim, px, hpx, lim, hlim, ?_⟩
              simp at h
              omega

/-
Claim theorems.
-/

/-- Claim C1 (counterexample): the claim as stated compares the target
bitrate with the entry's `min_start_bitrate_bps` as a signed integer.  At
the concrete input below every hypothesis of the claim holds and
`B = 1600000 ≥ M = -1`, yet the query answers `false`, because the source
casts `M` to `uint32_t` (giving 4294967295) before comparing. -/
theorem claim1_counterexample :
    (alwaysIncrease.DidIncreaseResolution () () = true ∧
      (BitrateConstraint.mk (some negMinSettings) (some 1600000)).encoder_settings
        = some negMinSettings ∧
      (BitrateConstraint.mk (some negMinSettings) (some 1600000)
          : BitrateConstraint Unit).encoder_target_bitrate_bps.getD 0 = 1600000 ∧
      IsSimulcast negMinSettings.encoder_config = some false ∧
      alwaysIncrease.GetSingleActiveLayerPixels () = some 230400 ∧
      negMinSettings.encoder_info.GetEncoderBitrateLimitsForResolution
        (alwaysIncrease.GetHigherResolutionThan 230400) = some ⟨921600, -1⟩ ∧
      ((1600000 : Int) ≥ (-1 : Int))) ∧
    BitrateConstraint.allowedUp ⟨some negMinSettings, some 1600000⟩
      alwaysIncrease () () () = some false := by
  exact ⟨⟨rfl, rfl, rfl, by decide, rfl, by decide, by decide⟩, by decide⟩

/-- Claim C1 (amended): under the claim's hypotheses the query returns true
iff the effective target bitrate is at least the entry's minimum start
bitrate converted to a 32-bit unsigned value (`uint32OfInt`, i.e. reduced
modulo `2^32`; identical to the signed value whenever it is nonnegative);
and this comparison is the only condition in the whole algorithm that can
make the query answer `false`. -/
theorem claim1_blocking_comparison {Restrictions VideoCodec InputState : Type}
    (self : BitrateConstraint VideoCodec)
    (ext : Collaborators Restrictions VideoCodec)
    (i : InputState) (rb ra : Restrictions) (es : EncoderSettings VideoCodec)
    (px : Nat) (lim : ResolutionBitrateLimits)
    (hinc : ext.DidIncreaseResolution rb ra = true)
    (hset : self.encoder_settings = some es)
    (hbr : self.encoder_target_bitrate_bps.getD 0 ≠ 0)
    (hsim : IsSimulcast es.encoder_config = some false)
    (hpx : ext.GetSingleActiveLayerPixels es.video_codec = some px)
    (hlim : es.encoder_info.GetEncoderBitrateLimitsForResolution
        (ext.GetHigherResolutionThan px) = some lim) :
    (self.allowedUp ext i rb ra = some true
      ↔ uint32OfInt lim.min_start_bitrate_bps
          ≤ self.encoder_target_bitrate_bps.getD 0) ∧
    (∀ (self' : BitrateConstraint VideoCodec)
        (ext' : Collaborators Restrictions VideoCodec)
        (i' : InputState) (rb' ra' : Restrictions),
      self'.allowedUp ext' i' rb' ra' = some false →
      ext'.DidIncreaseResolution rb' ra' = true ∧
      ∃ es', self'.encoder_settings = some es' ∧
        self'.encoder_target_bitrate_bps.getD 0 ≠ 0 ∧
        IsSimulcast es'.encoder_config = some false ∧
        ∃ px', ext'.GetSingleActiveLayerPixels es'.video_codec = some px' ∧
        ∃ lim', es'.encoder_info.GetEncoderBitrateLimitsForResolution
            (ext'.GetHigherResolutionThan px') = some lim' ∧
          self'.encoder_target_bitrate_bps.getD 0
            < uint32OfInt lim'.min_start_bitrate_bps) := by
  constructor
  · rw [allowedUp_of_limit self ext i rb ra es px lim hinc hset hbr hsim hpx hlim]
    simp
  · exact fun self' ext' i' rb' ra' h =>
      allowedUp_false_inversion self' ext' i' rb' ra' h

/-- Claim C1 (witness): the spec's worked example — current tier 230400 px,
next tier 921600 px with minimum start bitrate 1500000 — with target
bitrate 1600000 is allowed, and with target bitrate 1200000 it is not. -/
theorem claim1_witness :
    BitrateConstraint.allowedUp ⟨some singlecastSettings, some 1600000⟩
        alwaysIncrease () () () = some true ∧
    BitrateConstraint.allowedUp ⟨some singlecastSettings, some 1200000⟩
        alwaysIncrease () () () = some false := by
  constructor
  · exact (claim1_blocking_comparison ⟨some singlecastSettings, some 1600000⟩
      alwaysIncrease () () () singlecastSettings 230400 ⟨921600, 1500000⟩
      rfl rfl (by decide) (by decide) rfl (by decide)).1.mpr (by decide)
  · decide

/-- Claim C2: whenever the restriction comparison does not report a
resolution increase, the query answers true, for every stored state and
every input state. -/
theorem claim2_no_increase_always_allowed {Restrictions VideoCodec InputState : Type}
    (self : BitrateConstraint VideoCodec)
    (ext : Collaborators Restrictions VideoCodec)
    (i : InputState) (rb ra : Restrictions)
    (h : ext.DidIncreaseResolution rb ra = false) :
    self.allowedUp ext i rb ra = some true := by
  unfold BitrateConstraint.allowedUp
  rw [h]
  simp

/-- Claim C2 (witness): concrete non-increasing pair with a fully populated
state. -/
theorem claim2_witness :
    neverIncrease.DidIncreaseResolution () () = false ∧
    BitrateConstraint.allowedUp ⟨some singlecastSettings, some 1⟩
      neverIncrease () () () = some true :=
  ⟨rfl, claim2_no_increase_always_allowed ⟨some singlecastSettings, some 1⟩
    neverIncrease () () () rfl⟩

/-- Claim C3: on a resolution-increasing pair with settings present and a
nonzero effective target bitrate, a configuration satisfying the spec's
simulcast predicate makes the query answer true regardless of the bitrate
value; and the source's `IsSimulcast` classifies a configuration as
simulcast exactly when that predicate holds. -/
theorem claim3_simulcast_allowed {Restrictions VideoCodec InputState : Type}
    (self : BitrateConstraint VideoCodec)
    (ext : Collaborators Restrictions VideoCodec)
    (i : InputState) (rb ra : Restrictions) (es : EncoderSettings VideoCodec)
    (hinc : ext.DidIncreaseResolution rb ra = true)
    (hset : self.encoder_settings = some es)
    (hbr : self.encoder_target_bitrate_bps.getD 0 ≠ 0)
    (hsim : SimulcastSpec es.encoder_config = true) :
    self.allowedUp ext i rb ra = some true ∧
    ∀ cfg, IsSimulcast cfg = some true ↔ SimulcastSpec cfg = true := by
  refine ⟨?_, IsSimulcast_eq_spec⟩
  have hsim' : IsSimulcast es.encoder_config = some true :=
    (IsSimulcast_eq_spec es.encoder_config).mpr hsim
  unfold BitrateConstraint.allowedUp
  rw [hinc, hset]
  dsimp only
  rw [if_neg hbr, hsim']
  simp

/-- Claim C3 (witness): two configured layers, both active, target bitrate
1 bps: allowed. -/
theorem claim3_witness :
    SimulcastSpec simulcastSettings.encoder_config = true ∧
    BitrateConstraint.allowedUp ⟨some simulcastSettings, some 1⟩
      alwaysIncrease () () () = some true :=
  ⟨by decide, (claim3_simulcast_allowed ⟨some simulcastSettings, some 1⟩
    alwaysIncrease () () () simulcastSettings rfl rfl (by decide) (by decide)).1⟩

/-- Claim C4 (code bug): with stored settings whose simulcast-layer list is
empty, a nonzero stored bitrate and a resolution-increasing pair, evaluation
reaches `simulcast_layers[0]` on an empty vector inside `IsSimulcast` — an
out-of-bounds read, i.e. undefined behavior (`none` in this embedding) — so
the call does not return the fail-open boolean the claim requires. -/
theorem claim4_empty_layers_undefined :
    IsSimulcast emptyLayerSettings.encoder_config = none ∧
    BitrateConstraint.allowedUp ⟨some emptyLayerSettings, some 1⟩
      alwaysIncrease () () () = none :=
  ⟨rfl, rfl⟩

/-- Claim C5: with no stored encoder settings the query answers true on any
resolution-increasing pair. -/
theorem claim5_no_settings_allowed {Restrictions VideoCodec InputState : Type}
    (self : BitrateConstraint VideoCodec)
    (ext : Collaborators Restrictions VideoCodec)
    (i : InputState) (rb ra : Restrictions)
    (hinc : ext.DidIncreaseResolution rb ra = true)
    (hset : self.encoder_settings = none) :
    self.allowedUp ext i rb ra = some true := by
  unfold BitrateConstraint.allowedUp
  rw [hinc, hset]
  simp

/-- Claim C5 (witness): freshly constructed state (both fields absent) on an
increasing pair. -/
theorem claim5_witness :
    alwaysIncrease.DidIncreaseResolution () () = true ∧
    BitrateConstraint.allowedUp ⟨none, some 7⟩ alwaysIncrease () () ()
      = some true :=
  ⟨rfl, claim5_no_settings_allowed ⟨none, some 7⟩ alwaysIncrease () () () rfl rfl⟩

/-- Claim C6: a stored target bitrate of `none` and of `some 0` produce the
same answer for every stored settings value, input state and restriction
pair; and on a resolution-increasing pair with settings present both answer
true. -/
theorem claim6_absent_zero_equivalent {Restrictions VideoCodec InputState : Type}
    (so : Option (EncoderSettings VideoCodec))
    (ext : Collaborators Restrictions VideoCodec)
    (i : InputState) (rb ra : Restrictions) :
    BitrateConstraint.allowedUp ⟨so, none⟩ ext i rb ra
      = BitrateConstraint.allowedUp ⟨so, some 0⟩ ext i rb ra ∧
    ∀ es, so = some es → ext.DidIncreaseResolution rb ra = true →
      BitrateConstraint.allowedUp ⟨so, none⟩ ext i rb ra = some true ∧
      BitrateConstraint.allowedUp ⟨so, some 0⟩ ext i rb ra = some true := by
  refine ⟨rfl, ?_⟩
  rintro es rfl hinc
  constructor <;>
    · unfold BitrateConstraint.allowedUp
      rw [hinc]
      simp

/-- Claim C6 (witness): settings present, increasing pair, bitrate absent
and bitrate zero. -/
theorem claim6_witness :
    BitrateConstraint.allowedUp ⟨some singlecastSettings, none⟩
        alwaysIncrease () () ()
      = BitrateConstraint.allowedUp ⟨some singlecastSettings, some 0⟩
        alwaysIncrease () () () ∧
    BitrateConstraint.allowedUp ⟨some singlecastSettings, none⟩
        alwaysIncrease () () () = some true ∧
    BitrateConstraint.allowedUp ⟨some singlecastSettings, some 0⟩
        alwaysIncrease () () () = some true := by
  have h := claim6_absent_zero_equivalent (some singlecastSettings)
    alwaysIncrease () () ()
  exact ⟨h.1, (h.2 singlecastSettings rfl rfl).1, (h.2 singlecastSettings rfl rfl).2⟩

/-- Claim C7: in singlecast with settings present, nonzero effective
bitrate and a resolvable pixel count, an empty lookup result for the next
higher tier makes the query answer true whatever the bitrate is. -/
theorem claim7_no_limit_entry_allowed {Restrictions VideoCodec InputState : Type}
    (self : BitrateConstraint VideoCodec)
    (ext : Collaborators Restrictions VideoCodec)
    (i : InputState) (rb ra : Restrictions) (es : EncoderSettings VideoCodec)
    (px : Nat)
    (hinc : ext.DidIncreaseResolution rb ra = true)
    (hset : self.encoder_settings = some es)
    (hbr : self.encoder_target_bitrate_bps.getD 0 ≠ 0)
    (hsim : IsSimulcast es.encoder_config = some false)
    (hpx : ext.GetSingleActiveLayerPixels es.video_codec = some px)
    (hlim : es.encoder_info.GetEncoderBitrateLimitsForResolution
        (ext.GetHigherResolutionThan px) = none) :
    self.allowedUp ext i rb ra = some true := by
  unfold BitrateConstraint.allowedUp
  rw [hinc, hset]
  dsimp only
  rw [if_neg hbr, hsim]
  simp [hpx, hlim]

/-- Claim C7 (witness): singlecast settings with an empty capability table
and a tiny target bitrate: allowed. -/
theorem claim7_witness :
    noTableSettings.encoder_info.GetEncoderBitrateLimitsForResolution
      (alwaysIncrease.GetHigherResolutionThan 230400) = none ∧
    BitrateConstraint.allowedUp ⟨some noTableSettings, some 1⟩
      alwaysIncrease () () () = some true :=
  ⟨rfl, claim7_no_limit_entry_allowed ⟨some noTableSettings, some 1⟩
    alwaysIncrease () () () noTableSettings 230400
    rfl rfl (by decide) (by decide) rfl rfl⟩

/-- Claim C8: both update operations are whole-value replacements, so two
consecutive updates leave exactly the state of the second one alone, and
every subsequent query result reflects the second value only. -/
theorem claim8_last_write_wins {VideoCodec : Type}
    (c : BitrateConstraint VideoCodec)
    (A B : Option (EncoderSettings VideoCodec)) (tA tB : Option Nat) :
    (c.OnEncoderSettingsUpdated A).OnEncoderSettingsUpdated B
      = c.OnEncoderSettingsUpdated B ∧
    (c.OnEncoderTargetBitrateUpdated tA).OnEncoderTargetBitrateUpdated tB
      = c.OnEncoderTargetBitrateUpdated tB ∧
    ∀ {Restrictions InputState : Type}
      (ext : Collaborators Restrictions VideoCodec) (i : InputState)
      (rb ra : Restrictions),
      ((c.OnEncoderSettingsUpdated A).OnEncoderSettingsUpdated B).allowedUp
          ext i rb ra
        = (c.OnEncoderSettingsUpdated B).allowedUp ext i rb ra ∧
      ((c.OnEncoderTargetBitrateUpdated tA).OnEncoderTargetBitrateUpdated
          tB).allowedUp ext i rb ra
        = (c.OnEncoderTargetBitrateUpdated tB).allowedUp ext i rb ra :=
  ⟨rfl, rfl, fun _ _ _ _ => ⟨rfl, rfl⟩⟩

/-- Claim C9: the decision query leaves the stored state untouched — the
post-state of the state-passing embedding is the pre-state, both stored
fields included — and re-running the query from the post-state returns the
identical result. -/
theorem claim9_query_pure {Restrictions VideoCodec InputState : Type}
    (self : BitrateConstraint VideoCodec)
    (ext : Collaborators Restrictions VideoCodec)
    (i : InputState) (rb ra : Restrictions) :
    (self.IsAdaptationUpAllowed ext i rb ra).2.encoder_settings
      = self.encoder_settings ∧
    (self.IsAdaptationUpAllowed ext i rb ra).2.encoder_target_bitrate_bps
      = self.encoder_target_bitrate_bps ∧
    (self.IsAdaptationUpAllowed ext i rb ra).2 = self ∧
    (self.IsAdaptationUpAllowed ext i rb ra).2.IsAdaptationUpAllowed ext i rb ra
      = self.IsAdaptationUpAllowed ext i rb ra := by
  have h2 : (self.IsAdaptationUpAllowed ext i rb ra).2 = self := by
    unfold BitrateConstraint.IsAdaptationUpAllowed
    repeat' split <;> try rfl
    all_goals (dsimp only; split <;> rfl)
  exact ⟨by rw [h2], by rw [h2], h2, by rw [h2]⟩

/-- Claim C10: the looked-up entry's signed `min_start_bitrate_bps` is
compared after conversion to a 32-bit unsigned value; for a negative entry
in the C++ `int` range the effective threshold is the value plus `2^32`. -/
theorem claim10_negative_min_cast {Restrictions VideoCodec InputState : Type}
    (self : BitrateConstraint VideoCodec)
    (ext : Collaborators Restrictions VideoCodec)
    (i : InputState) (rb ra : Restrictions) (es : EncoderSettings VideoCodec)
    (px : Nat) (lim : ResolutionBitrateLimits)
    (hinc : ext.DidIncreaseResolution rb ra = true)
    (hset : self.encoder_settings = some es)
    (hbr : self.encoder_target_bitrate_bps.getD 0 ≠ 0)
    (hsim : IsSimulcast es.encoder_config = some false)
    (hpx : ext.GetSingleActiveLayerPixels es.video_codec = some px)
    (hlim : es.encoder_info.GetEncoderBitrateLimitsForResolution
        (ext.GetHigherResolutionThan px) = some lim)
    (hneg : lim.min_start_bitrate_bps < 0)
    (hrange : -2147483648 ≤ lim.min_start_bitrate_bps) :
    uint32OfInt lim.min_start_bitrate_bps
      = (lim.min_start_bitrate_bps + 4294967296).toNat ∧
    self.allowedUp ext i rb ra
      = some (decide ((lim.min_start_bitrate_bps + 4294967296).toNat
          ≤ self.encoder_target_bitrate_bps.getD 0)) := by
  have hcast : uint32OfInt lim.min_start_bitrate_bps
      = (lim.min_start_bitrate_bps + 4294967296).toNat := by
    unfold uint32OfInt
    have hmod : lim.min_start_bitrate_bps % 4294967296
        = lim.min_start_bitrate_bps + 4294967296 := by omega
    rw [hmod]
  refine ⟨hcast, ?_⟩
  rw [allowedUp_of_limit self ext i rb ra es px lim hinc hset hbr hsim hpx hlim,
    hcast]

/-- Claim C10 (witness): an entry with `min_start_bitrate_bps = -1` behaves
as the threshold 4294967295, so a target bitrate of 1600000 is blocked. -/
theorem claim10_witness :
    ((-1 : Int) + 4294967296).toNat = 4294967295 ∧
    uint32OfInt (-1) = 4294967295 ∧
    BitrateConstraint.allowedUp ⟨some negMinSettings, some 1600000⟩
      alwaysIncrease () () () = some false := by
  have h := claim10_negative_min_cast ⟨some negMinSettings, some 1600000⟩
    alwaysIncrease () () () negMinSettings 230400 ⟨921600, -1⟩
    rfl rfl (by decide) (by decide) rfl rfl (by decide) (by decide)
  refine ⟨by decide, ?_, ?_⟩
  · exact h.1
  · rw [h.2]
    decide

end Webrtc
